import Mathlib

/-!
Shallow embedding of the tjam synthesizer's voice engine
(src/fx/adsr.rs, src/patches/basic.rs, src/audio_patch.rs, src/play.rs,
src/key.rs, src/config.rs), with theorems checking the specification's
claims against it.  `f32` arithmetic is modelled exactly by `ℚ` (the code's
clamped envelope arithmetic and the noise generator's conversions are exact
in `f32` up to rounding of the seconds-to-samples products); sample values
of the oscillators live in `ℝ`.
-/

namespace Tjam

/-- The `f32::clamp(self, min, max)` from Rust: returns `min` below the range,
`max` above it, the value itself otherwise. -/
def fclamp (x lo hi : ℚ) : ℚ :=
  if x < lo then lo else if x > hi then hi else x

/-- Envelope stages, from `enum Stage` in src/fx/adsr.rs. -/
inductive Stage
  | attack
  | decay
  | sustain
  | release
  | done
deriving DecidableEq, Repr

/-- ADSR parameters (seconds / sustain level), from `struct Adsr` in
src/fx/adsr.rs. -/
structure Adsr where
  attack_s : ℚ
  decay_s : ℚ
  sustain : ℚ
  release_s : ℚ
deriving DecidableEq, Repr

/-- Derived per-sample envelope data, from `struct AdsrEnvelope` in
src/fx/adsr.rs (`u64` counts as `ℕ`, `f32` steps as `ℚ`). -/
structure AdsrEnvelope where
  attack_samples : ℕ
  decay_samples : ℕ
  release_samples : ℕ
  sustain : ℚ
  attack_step : ℚ
  decay_step : ℚ
  release_step : ℚ
deriving DecidableEq, Repr

/-- The `Adsr::to_envelope` from src/fx/adsr.rs: counts are
`(seconds * sample_rate).round() as u64` (`round` is half-away-from-zero and
the `u64` cast saturates negatives at 0, which `(round q).toNat` reproduces
for every `q` that matters); each step divides by its count when the count
is positive and otherwise takes the whole stage range. -/
def Adsr.toEnvelope (a : Adsr) (sampleRate : ℕ) : AdsrEnvelope :=
  let sr : ℚ := sampleRate
  let attack_samples : ℕ := (round (a.attack_s * sr)).toNat
  let decay_samples : ℕ := (round (a.decay_s * sr)).toNat
  let release_samples : ℕ := (round (a.release_s * sr)).toNat
  { attack_samples := attack_samples
    decay_samples := decay_samples
    release_samples := release_samples
    sustain := a.sustain
    attack_step := if attack_samples > 0 then 1 / (attack_samples : ℚ) else 1
    decay_step :=
      if decay_samples > 0 then (1 - a.sustain) / (decay_samples : ℚ)
      else 1 - a.sustain
    release_step :=
      if release_samples > 0 then a.sustain / (release_samples : ℚ)
      else a.sustain }

/-- The mutable envelope part of `struct AdsrSource` in src/fx/adsr.rs
(everything `step_envelope` reads and writes except the gate). -/
structure EnvState where
  envelope : AdsrEnvelope
  stage : Stage
  stage_pos : ℕ
  current_amp : ℚ
deriving DecidableEq, Repr

/-- The initial envelope state built by `AdsrSource::new`:
stage `Attack`, position 0, amplitude 0. -/
def initEnv (a : Adsr) (sampleRate : ℕ) : EnvState :=
  { envelope := a.toEnvelope sampleRate
    stage := Stage.attack
    stage_pos := 0
    current_amp := 0 }

/-- The leading `if` block of `AdsrSource::step_envelope`: when the gate
reads false and the stage is neither `Release` nor `Done`, force the stage
to `Release`, reset the position, and recompute `release_step` from the
current amplitude. -/
def gateCheck (gate : Bool) (s : EnvState) : EnvState :=
  if gate = false ∧ s.stage ≠ Stage.release ∧ s.stage ≠ Stage.done then
    { s with
      stage := Stage.release
      stage_pos := 0
      envelope :=
        { s.envelope with
          release_step :=
            if s.envelope.release_samples > 0 then
              s.current_amp / (s.envelope.release_samples : ℚ)
            else s.current_amp } }
  else s

/-- The `match self.stage` block of `AdsrSource::step_envelope`: advance the
stage counter, transition on count exhaustion, then apply the per-stage
amplitude update (in the source the step addition/subtraction happens after
the transition assignment, which this mirrors). -/
def stageAdvance (s : EnvState) : EnvState :=
  match s.stage with
  | Stage.attack =>
      let s' :=
        if s.stage_pos + 1 ≥ s.envelope.attack_samples then
          { s with stage := Stage.decay, stage_pos := 0, current_amp := 1 }
        else { s with stage_pos := s.stage_pos + 1 }
      { s' with current_amp := s'.current_amp + s'.envelope.attack_step }
  | Stage.decay =>
      let s' :=
        if s.stage_pos + 1 ≥ s.envelope.decay_samples then
          { s with stage := Stage.sustain, stage_pos := 0,
                   current_amp := s.envelope.sustain }
        else { s with stage_pos := s.stage_pos + 1 }
      { s' with current_amp := s'.current_amp - s'.envelope.decay_step }
  | Stage.sustain =>
      { s with current_amp := s.envelope.sustain }
  | Stage.release =>
      let s' :=
        if s.stage_pos + 1 ≥ s.envelope.release_samples then
          { s with stage := Stage.done, stage_pos := 0, current_amp := 0 }
        else { s with stage_pos := s.stage_pos + 1 }
      { s' with current_amp := s'.current_amp - s'.envelope.release_step }
  | Stage.done =>
      { s with current_amp := 0 }

/-- The `AdsrSource::step_envelope`: gate check, stage advance, and the returned
amplitude factor `self.current_amp.clamp(0.0, 1.0)`. -/
def stepEnvelope (gate : Bool) (s : EnvState) : EnvState × ℚ :=
  let s' := stageAdvance (gateCheck gate s)
  (s', fclamp s'.current_amp 0 1)

/-- The envelope state after `n` samples, starting from `AdsrSource::new`'s
initial state and reading the gate value `gates k` on the `k`-th sample. -/
def envStates (a : Adsr) (sampleRate : ℕ) (gates : ℕ → Bool) : ℕ → EnvState
  | 0 => initEnv a sampleRate
  | n + 1 => (stepEnvelope (gates n) (envStates a sampleRate gates n)).1

/-- The amplitude factor `step_envelope` returns on the `n`-th sample (the
value the input sample is multiplied by). -/
def ampOut (a : Adsr) (sampleRate : ℕ) (gates : ℕ → Bool) (n : ℕ) : ℚ :=
  (stepEnvelope (gates n) (envStates a sampleRate gates n)).2

theorem fclamp_mem (x : ℚ) : 0 ≤ fclamp x 0 1 ∧ fclamp x 0 1 ≤ 1 := by
  unfold fclamp
  split_ifs with h1 h2 <;> constructor <;> linarith

theorem stepEnvelope_amp_mem (gate : Bool) (s : EnvState) :
    0 ≤ (stepEnvelope gate s).2 ∧ (stepEnvelope gate s).2 ≤ 1 := by
  unfold stepEnvelope
  exact fclamp_mem _

/-- C1: for every envelope parameter tuple with non-negative attack, decay
and release durations and sustain in `[0,1]`, every gate sequence, and the
initial state (`Attack`, amplitude 0), the amplitude factor produced for
each sample lies in `[0,1]` (the code clamps the returned factor to `[0,1]`
on every sample). -/
theorem adsr_amp_in_unit_interval (a : Adsr) (sampleRate : ℕ)
    (gates : ℕ → Bool)
    (h1 : 0 ≤ a.attack_s) (h2 : 0 ≤ a.decay_s) (h3 : 0 ≤ a.release_s)
    (h4 : 0 ≤ a.sustain) (h5 : a.sustain ≤ 1) (n : ℕ) :
    0 ≤ ampOut a sampleRate gates n ∧ ampOut a sampleRate gates n ≤ 1 :=
  stepEnvelope_amp_mem _ _

/-- Witness for C1 at a concrete parameter tuple, gate sequence and step. -/
theorem adsr_amp_in_unit_interval_witness :
    0 ≤ ampOut ⟨1/10, 1/10, 1/2, 1/5⟩ 48000 (fun _ => true) 0 ∧
      ampOut ⟨1/10, 1/10, 1/2, 1/5⟩ 48000 (fun _ => true) 0 ≤ 1 :=
  adsr_amp_in_unit_interval ⟨1/10, 1/10, 1/2, 1/5⟩ 48000 (fun _ => true)
    (by norm_num) (by norm_num) (by norm_num) (by norm_num) (by norm_num) 0

theorem attack_step_eq (a : Adsr) (sr : ℕ) :
    (a.toEnvelope sr).attack_step
      = 1 / ((max 1 (a.toEnvelope sr).attack_samples : ℕ) : ℚ) := by
  simp only [Adsr.toEnvelope]
  rcases Nat.eq_zero_or_pos ((round (a.attack_s * (sr : ℚ))).toNat) with h | h
  · simp [h]
  · rw [if_pos h, max_eq_right h]

theorem decay_step_eq (a : Adsr) (sr : ℕ) :
    (a.toEnvelope sr).decay_step
      = (1 - a.sustain) / ((max 1 (a.toEnvelope sr).decay_samples : ℕ) : ℚ) := by
  simp only [Adsr.toEnvelope]
  rcases Nat.eq_zero_or_pos ((round (a.decay_s * (sr : ℚ))).toNat) with h | h
  · simp [h]
  · rw [if_pos h, max_eq_right h]

theorem release_step_eq (a : Adsr) (sr : ℕ) :
    (a.toEnvelope sr).release_step
      = a.sustain / ((max 1 (a.toEnvelope sr).release_samples : ℕ) : ℚ) := by
  simp only [Adsr.toEnvelope]
  rcases Nat.eq_zero_or_pos ((round (a.release_s * (sr : ℚ))).toNat) with h | h
  · simp [h]
  · rw [if_pos h, max_eq_right h]

theorem gateCheck_true (s : EnvState) : gateCheck true s = s := by
  simp [gateCheck]

/-- With the gate held true, during the attack phase the state after `k`
samples is stage `Attack` at position `k` with amplitude `k * attack_step`. -/
theorem envStates_attack (a : Adsr) (sr : ℕ) (k : ℕ)
    (hk : k < max 1 (a.toEnvelope sr).attack_samples) :
    envStates a sr (fun _ => true) k =
      { envelope := a.toEnvelope sr
        stage := Stage.attack
        stage_pos := k
        current_amp := (k : ℚ) * (a.toEnvelope sr).attack_step } := by
  induction k with
  | zero => simp [envStates, initEnv]
  | succ k ih =>
      have hk' : k < max 1 (a.toEnvelope sr).attack_samples :=
        Nat.lt_of_succ_lt hk
      have hn1 : k + 1 < (a.toEnvelope sr).attack_samples := by
        rcases Nat.eq_zero_or_pos ((a.toEnvelope sr).attack_samples) with h0 | hpos
        · rw [h0] at hk; omega
        · rwa [max_eq_right hpos] at hk
      have : envStates a sr (fun _ => true) (k + 1)
          = (stepEnvelope true (envStates a sr (fun _ => true) k)).1 := rfl
      rw [this, ih hk']
      simp only [stepEnvelope, gateCheck_true, stageAdvance,
        if_neg (Nat.not_le.mpr hn1)]
      congr 1
      push_cast
      ring

/-- C2: with the gate true throughout, from the initial state the amplitude
factor on attack sample `j` (0-indexed) is `(j+1) * attack_step`, so it rises
by `attack_step` every sample and is non-decreasing; the transition to
`Decay` happens exactly on the sample where the amplitude reaches `≥ 1.0`
(the output is `< 1` exactly while the stage stays `Attack`), and on the
transition sample the produced amplitude is exactly `1.0` (the code clamps
the overshoot `1 + attack_step` back to `1.0`). -/
theorem adsr_attack_ramp (a : Adsr) (sr : ℕ) (j : ℕ)
    (hj : j < max 1 (a.toEnvelope sr).attack_samples) :
    ampOut a sr (fun _ => true) j = ((j : ℚ) + 1) * (a.toEnvelope sr).attack_step
    ∧ (envStates a sr (fun _ => true) (j + 1)).stage =
        (if j + 1 = max 1 (a.toEnvelope sr).attack_samples then Stage.decay
         else Stage.attack)
    ∧ (ampOut a sr (fun _ => true) j < 1
        ↔ j + 1 < max 1 (a.toEnvelope sr).attack_samples)
    ∧ (j + 1 = max 1 (a.toEnvelope sr).attack_samples
        → ampOut a sr (fun _ => true) j = 1) := by
  have hstep := attack_step_eq a sr
  set n := (a.toEnvelope sr).attack_samples with hn
  set m := max 1 n with hm
  have hmpos : 0 < m := lt_of_lt_of_le Nat.one_pos (le_max_left 1 n)
  have hmQ : (0 : ℚ) < (m : ℚ) := by exact_mod_cast hmpos
  have hstate := envStates_attack a sr j hj
  have hsucc : envStates a sr (fun _ => true) (j + 1)
      = (stepEnvelope true (envStates a sr (fun _ => true) j)).1 := rfl
  have hout : ampOut a sr (fun _ => true) j
      = (stepEnvelope true (envStates a sr (fun _ => true) j)).2 := rfl
  by_cases hlt : j + 1 < m
  · -- no transition on this sample
    have hltn : j + 1 < n := by
      rcases Nat.eq_zero_or_pos n with h0 | hpos
      · rw [h0] at hm; simp [hm] at hlt
      · rwa [hm, max_eq_right hpos] at hlt
    have hamp : ((j : ℚ) + 1) * (a.toEnvelope sr).attack_step
        = ((j : ℚ) + 1) / (m : ℚ) := by
      rw [hstep]; field_simp
    have hmem0 : (0 : ℚ) ≤ ((j : ℚ) + 1) / (m : ℚ) := by positivity
    have hmem1 : ((j : ℚ) + 1) / (m : ℚ) ≤ 1 := by
      rw [div_le_one hmQ]
      exact_mod_cast Nat.le_of_lt hlt
    have hcl : fclamp (((j : ℚ) + 1) / (m : ℚ)) 0 1
        = ((j : ℚ) + 1) / (m : ℚ) := by
      unfold fclamp
      rw [if_neg (by linarith), if_neg (by linarith)]
    have hstepval : (stepEnvelope true (envStates a sr (fun _ => true) j))
        = ({ envelope := a.toEnvelope sr, stage := Stage.attack,
             stage_pos := j + 1,
             current_amp := (j : ℚ) * (a.toEnvelope sr).attack_step
               + (a.toEnvelope sr).attack_step },
           fclamp ((j : ℚ) * (a.toEnvelope sr).attack_step
               + (a.toEnvelope sr).attack_step) 0 1) := by
      rw [hstate]
      simp only [stepEnvelope, gateCheck_true, stageAdvance,
        if_neg (Nat.not_le.mpr hltn)]
    have hsum : (j : ℚ) * (a.toEnvelope sr).attack_step
        + (a.toEnvelope sr).attack_step
        = ((j : ℚ) + 1) / (m : ℚ) := by
      rw [hstep]; field_simp
    refine ⟨?_, ?_, ?_, ?_⟩
    · rw [hout, hstepval]; simp only
      rw [hsum, hcl, hamp]
    · rw [hsucc, hstepval]; simp only
      rw [if_neg (Nat.ne_of_lt hlt)]
    · rw [hout, hstepval]; simp only
      rw [hsum, hcl]
      constructor
      · intro _; exact hlt
      · intro _
        rw [div_lt_one hmQ]
        exact_mod_cast hlt
    · intro h; exact absurd h (Nat.ne_of_lt hlt)
  · -- j + 1 = m : the transition sample
    have heq : j + 1 = m := by omega
    have hge : j + 1 ≥ n := by
      have : n ≤ m := le_max_right 1 n
      omega
    have hstepnn : (0 : ℚ) < (a.toEnvelope sr).attack_step := by
      rw [hstep]; positivity
    have hstepval : (stepEnvelope true (envStates a sr (fun _ => true) j))
        = ({ envelope := a.toEnvelope sr, stage := Stage.decay,
             stage_pos := 0,
             current_amp := 1 + (a.toEnvelope sr).attack_step },
           fclamp (1 + (a.toEnvelope sr).attack_step) 0 1) := by
      rw [hstate]
      simp only [stepEnvelope, gateCheck_true, stageAdvance, if_pos hge]
    have hcl : fclamp (1 + (a.toEnvelope sr).attack_step) 0 1 = 1 := by
      unfold fclamp
      rw [if_neg (by linarith), if_pos (by linarith)]
    have hone : ((j : ℚ) + 1) * (a.toEnvelope sr).attack_step = 1 := by
      rw [hstep]
      have : ((j : ℚ) + 1) = (m : ℚ) := by exact_mod_cast heq
      rw [this]
      field_simp
    refine ⟨?_, ?_, ?_, ?_⟩
    · rw [hout, hstepval]; simp only
      rw [hcl, hone]
    · rw [hsucc, hstepval]; simp only
      rw [if_pos heq]
    · rw [hout, hstepval]; simp only
      rw [hcl]
      constructor
      · intro h; linarith
      · intro h; omega
    · intro _
      rw [hout, hstepval]; simp only
      rw [hcl]

/-- Witness for C2 on a one-sample attack stage. -/
theorem adsr_attack_ramp_witness :
    ampOut ⟨0, 0, 1/2, 0⟩ 1 (fun _ => true) 0
      = ((0 : ℚ) + 1) * (((Adsr.mk 0 0 (1/2) 0).toEnvelope 1).attack_step) :=
  (adsr_attack_ramp ⟨0, 0, 1/2, 0⟩ 1 0
    (lt_of_lt_of_le Nat.one_pos (le_max_left 1 _))).1

/-- C3 counterexample: the code stores `attack_samples = round(attack_s*sr)`
with no lower bound of 1.  For `attack_s = 0` at 48 kHz the stored count is
`0`, not `max 1 (round (0 * 48000)) = 1` as the claim states. -/
theorem adsr_samples_formula_counterexample :
    ¬ (((Adsr.mk 0 (1/10) (1/2) (1/10)).toEnvelope 48000).attack_samples
        = max 1 ((round ((0 : ℚ) * 48000)).toNat)) := by
  simp [Adsr.toEnvelope]

/-- C3 amended: the stored counts are `round(duration * sr)` with no minimum
of 1; each derived step nevertheless equals the spec's formula with the
count replaced by `max 1 count` (a zero count puts the full stage range in
the step), so no step computation divides by zero, and a 0-second attack
still collapses to a single-sample transition: with `attack_samples = 0`
the very first sample leaves `Attack` for `Decay`. -/
theorem adsr_derived_steps (a : Adsr) (sr : ℕ) :
    (a.toEnvelope sr).attack_samples = (round (a.attack_s * (sr : ℚ))).toNat
    ∧ (a.toEnvelope sr).attack_step
        = 1 / ((max 1 (a.toEnvelope sr).attack_samples : ℕ) : ℚ)
    ∧ (a.toEnvelope sr).decay_step
        = (1 - a.sustain) / ((max 1 (a.toEnvelope sr).decay_samples : ℕ) : ℚ)
    ∧ (a.toEnvelope sr).release_step
        = a.sustain / ((max 1 (a.toEnvelope sr).release_samples : ℕ) : ℚ)
    ∧ ((a.toEnvelope sr).attack_samples = 0
        → (stepEnvelope true (initEnv a sr)).1.stage = Stage.decay) := by
  refine ⟨rfl, attack_step_eq a sr, decay_step_eq a sr, release_step_eq a sr, ?_⟩
  intro h0
  simp only [stepEnvelope, initEnv, gateCheck_true, stageAdvance,
    if_pos (h0 ▸ Nat.zero_le 1)]

/-- Witness for C3's amended claim at a zero-duration parameter tuple. -/
theorem adsr_derived_steps_witness :
    ((Adsr.mk 0 0 (1/2) 0).toEnvelope 48000).attack_step = 1
    ∧ (stepEnvelope true (initEnv (Adsr.mk 0 0 (1/2) 0) 48000)).1.stage
        = Stage.decay := by
  have h := adsr_derived_steps (Adsr.mk 0 0 (1/2) 0) 48000
  have hzero : ((Adsr.mk 0 0 (1/2) 0).toEnvelope 48000).attack_samples = 0 := by
    simp [Adsr.toEnvelope]
  refine ⟨?_, h.2.2.2.2 hzero⟩
  rw [h.2.1, hzero]
  norm_num

/-- The stage-advance block never modifies the derived envelope record
(steps and counts); only the gate-check block rewrites `release_step`. -/
theorem stageAdvance_envelope (s : EnvState) :
    (stageAdvance s).envelope = s.envelope := by
  rcases s with ⟨env, st, pos, amp⟩
  cases st <;> simp [stageAdvance] <;> split_ifs <;> rfl

/-- C5: on a sample where the gate reads false while the stage is neither
`Release` nor `Done`, the gate-check block of `step_envelope` forces the
stage to `Release` and recomputes `release_step` as the amplitude at that
moment divided by `release_samples` (the code's zero-count fallback
`release_step = current_amp` coincides with division by `max 1 count`, the
spec's count); the amplitude itself is untouched by the check, and the
recomputed step survives the rest of the sample step. -/
theorem adsr_release_trigger (s : EnvState) (g : Bool)
    (hg : g = false) (h1 : s.stage ≠ Stage.release) (h2 : s.stage ≠ Stage.done) :
    (gateCheck g s).stage = Stage.release
    ∧ (gateCheck g s).current_amp = s.current_amp
    ∧ (gateCheck g s).envelope.release_step
        = s.current_amp / ((max 1 s.envelope.release_samples : ℕ) : ℚ)
    ∧ (stepEnvelope g s).1.envelope.release_step
        = s.current_amp / ((max 1 s.envelope.release_samples : ℕ) : ℚ) := by
  have hif : gateCheck g s =
      { s with
        stage := Stage.release
        stage_pos := 0
        envelope :=
          { s.envelope with
            release_step :=
              if s.envelope.release_samples > 0 then
                s.current_amp / (s.envelope.release_samples : ℚ)
              else s.current_amp } } := by
    unfold gateCheck
    rw [if_pos ⟨hg, h1, h2⟩]
  have hstep : (if s.envelope.release_samples > 0 then
        s.current_amp / (s.envelope.release_samples : ℚ)
      else s.current_amp)
      = s.current_amp / ((max 1 s.envelope.release_samples : ℕ) : ℚ) := by
    rcases Nat.eq_zero_or_pos s.envelope.release_samples with h | h
    · rw [if_neg (by omega), h]
      norm_num
    · rw [if_pos h, max_eq_right h]
  refine ⟨by rw [hif], by rw [hif], by rw [hif]; exact hstep, ?_⟩
  show (stageAdvance (gateCheck g s)).envelope.release_step = _
  rw [stageAdvance_envelope, hif]
  exact hstep

/-- A concrete non-release state used to witness C5 (and C6's terminal
state below): mid-attack, amplitude one half. -/
def midAttackState : EnvState :=
  { envelope := ⟨2, 2, 2, 1/2, 1/2, 1/4, 1/4⟩
    stage := Stage.attack
    stage_pos := 1
    current_amp := 1/2 }

/-- Witness for C5 at a concrete mid-attack state. -/
theorem adsr_release_trigger_witness :
    (gateCheck false midAttackState).stage = Stage.release
    ∧ (gateCheck false midAttackState).current_amp
        = midAttackState.current_amp
    ∧ (gateCheck false midAttackState).envelope.release_step
        = midAttackState.current_amp
            / ((max 1 midAttackState.envelope.release_samples : ℕ) : ℚ)
    ∧ (stepEnvelope false midAttackState).1.envelope.release_step
        = midAttackState.current_amp
            / ((max 1 midAttackState.envelope.release_samples : ℕ) : ℚ) :=
  adsr_release_trigger midAttackState false rfl (by decide) (by decide)

/-- The sample-iterator part of `struct AdsrSource`: the boxed input source
is modelled as a stream (`ℕ → Option ℚ`) with a read cursor. -/
structure AdsrSource where
  input : ℕ → Option ℚ
  inputPos : ℕ
  env : EnvState

/-- The `Iterator::next` for `AdsrSource` (src/fx/adsr.rs): `None` when already
`Done`, otherwise pull an input sample (`?`), step the envelope, return
`None` when the step landed in `Done`, and otherwise the input multiplied by
the amplitude factor. -/
def AdsrSource.next (gate : Bool) (src : AdsrSource) : Option (ℚ × AdsrSource) :=
  if src.env.stage = Stage.done then none
  else
    match src.input src.inputPos with
    | none => none
    | some x =>
        let p := stepEnvelope gate src.env
        if p.1.stage = Stage.done then none
        else some (x * p.2, { src with inputPos := src.inputPos + 1, env := p.1 })

/-- C6: once the stage is the terminal `Done`, the iterator yields `None`
(for every input stream, input position and gate value) — and since `next`
offers no successor state, no later sample can ever be produced — while the
envelope's amplitude is forced to 0 (`step_envelope` on a `Done` state
returns amplitude factor 0). -/
theorem adsr_done_terminates (gate : Bool) (src : AdsrSource)
    (h : src.env.stage = Stage.done) :
    AdsrSource.next gate src = none ∧ (stepEnvelope gate src.env).2 = 0 := by
  constructor
  · unfold AdsrSource.next
    rw [if_pos h]
  · have hg : gateCheck gate src.env = src.env := by
      unfold gateCheck
      rw [if_neg]
      rintro ⟨-, -, hne⟩
      exact hne h
    rcases hsrc : src.env with ⟨env, st, pos, amp⟩
    rw [hsrc] at h hg
    subst h
    simp [stepEnvelope, hg, stageAdvance, fclamp]

/-- Witness for C6 at a concrete finished source. -/
theorem adsr_done_terminates_witness :
    AdsrSource.next true ⟨fun _ => some 1, 5, ⟨⟨2, 2, 2, 1/2, 1/2, 1/4, 1/4⟩,
        Stage.done, 0, 0⟩⟩ = none
    ∧ (stepEnvelope true (⟨⟨2, 2, 2, 1/2, 1/2, 1/4, 1/4⟩,
        Stage.done, 0, 0⟩ : EnvState)).2 = 0 :=
  adsr_done_terminates true _ rfl

/-! ## Patch layer (src/audio_patch.rs, src/patches/basic.rs, src/config.rs) -/

/-- A boxed rodio source (`SynthSource`): a position-indexed stream of mono
samples, `none` once the source is exhausted. -/
def SampleSeq : Type := ℕ → Option ℝ

/-- The `SAMPLE_RATE` from src/config.rs. -/
def SAMPLE_RATE : ℕ := 48000

/-- The `ENDLESS = Duration::from_secs(3600)` from src/config.rs, in
nanoseconds. -/
def endlessNanos : ℕ := 3600 * 1000000000

/-- The `AMP_DEFAULT` from src/config.rs. -/
noncomputable def AMP_DEFAULT : ℝ := 1

/-- Models rodio's `amplify` combinator (external library): every sample is
multiplied by the factor. -/
def amplify (factor : ℝ) (s : SampleSeq) : SampleSeq :=
  fun n => (s n).map (fun x => x * factor)

/-- The nanoseconds rodio attributes to one sample: one second divided by
`sample_rate * channels` in integer nanoseconds. -/
def perSampleNanos (sampleRate channels : ℕ) : ℕ :=
  1000000000 / (sampleRate * channels)

/-- Models rodio's `take_duration` combinator (external library): the input
is passed through until the accumulated per-sample durations exhaust the
requested duration, and the source reports exhaustion from then on. -/
def takeDuration (durNanos sampleRate channels : ℕ) (s : SampleSeq) : SampleSeq :=
  fun n =>
    if (n + 1) * perSampleNanos sampleRate channels ≤ durNanos then s n
    else none

/-- Models rodio's `SineWave::new(freq)` (external library): an unending
mono sine oscillator at 48 kHz. -/
noncomputable def sineWave (freq : ℚ) : SampleSeq :=
  fun n => some (Real.sin (2 * Real.pi * (freq : ℝ) * n / (SAMPLE_RATE : ℝ)))

/-- Oscillator phase in `[0,1)` after `n` samples at 48 kHz (external rodio
waveform helpers). -/
def oscPhase (freq : ℚ) (n : ℕ) : ℚ :=
  Int.fract (freq * n / (SAMPLE_RATE : ℚ))

/-- Models rodio's `SquareWave::new(freq)` (external library). -/
noncomputable def squareWave (freq : ℚ) : SampleSeq :=
  fun n => some (((if oscPhase freq n < 1/2 then 1 else -1 : ℚ) : ℝ))

/-- Models rodio's `SawtoothWave::new(freq)` (external library). -/
noncomputable def sawtoothWave (freq : ℚ) : SampleSeq :=
  fun n => some (((2 * oscPhase freq n - 1 : ℚ) : ℝ))

/-- Models rodio's `TriangleWave::new(freq)` (external library). -/
noncomputable def triangleWave (freq : ℚ) : SampleSeq :=
  fun n => some (((4 * |oscPhase freq n - 1/2| - 1 : ℚ) : ℝ))

/-- One xorshift64 state update from `NoiseGen::next_noise`
(src/patches/basic.rs); `u64` is `ℕ` with the left shift wrapped modulo
`2^64` (the right shifts and xors cannot overflow). -/
def xorshiftStep (x : ℕ) : ℕ :=
  let x1 := Nat.xor x (x >>> 12)
  let x2 := Nat.xor x1 ((x1 <<< 25) % 2 ^ 64)
  Nat.xor x2 (x2 >>> 27)

/-- The sample `NoiseGen::next_noise` derives from a post-update state `x`:
`y = x.wrapping_mul(0x2545F4914F6CDD1D)`, `u = (y >> 40) as u32`,
`f = u as f32 / 2^24`, sample `2*f - 1` (all of which is exact in `f32`,
so `ℚ` models it without error). -/
def noiseValue (x : ℕ) : ℚ :=
  let y := (x * 0x2545F4914F6CDD1D) % 2 ^ 64
  let u := y >>> 40
  2 * ((u : ℚ) / 2 ^ 24) - 1

/-- The `NoiseGen` iterator stream from a seed: the xorshift state is
advanced once before each sample is produced. -/
noncomputable def noiseStream (seed : ℕ) : SampleSeq :=
  fun n => some ((noiseValue (xorshiftStep^[n + 1] seed) : ℚ) : ℝ)

/-- The `enum BasicKind` from src/patches/basic.rs. -/
inductive BasicKind
  | sine
  | saw
  | square
  | triangle
  | noise
deriving DecidableEq, Repr

/-- The `BasicKind::name` from src/patches/basic.rs. -/
def BasicKind.name : BasicKind → String
  | BasicKind.sine => "Sine"
  | BasicKind.saw => "Saw"
  | BasicKind.square => "Square"
  | BasicKind.triangle => "Triangle"
  | BasicKind.noise => "Noise"

/-- The `struct NoiseParams` from src/patches/basic.rs. -/
structure NoiseParams where
  seed : ℕ
  sample_rate : ℕ
deriving DecidableEq, Repr

/-- The fixed seed `0x1234_5678_9ABC_DEF0` baked into `basic_source`. -/
def noiseSeed : ℕ := 0x123456789ABCDEF0

/-- The `struct BasicSource` from src/patches/basic.rs (duration kept in
nanoseconds). -/
structure BasicSource where
  kind : BasicKind
  amplitude : ℝ
  durationNanos : ℕ
  noise : Option NoiseParams

/-- The `basic_source` from src/patches/basic.rs: noise parameters (fixed seed,
48 kHz) only for the noise kind, default amplitude, `ENDLESS` duration. -/
noncomputable def basicSource (kind : BasicKind) : BasicSource :=
  { kind := kind
    amplitude := AMP_DEFAULT
    durationNanos := endlessNanos
    noise :=
      if kind = BasicKind.noise then some ⟨noiseSeed, SAMPLE_RATE⟩ else none }

/-- The `BasicSource::create_source` from src/patches/basic.rs: the kind's
oscillator, amplified, cut off after `self.duration`.  The `expect` on the
missing noise parameters (a panic, unreachable through `basic_source`) is
modelled as an immediately exhausted stream. -/
noncomputable def BasicSource.createSource (s : BasicSource) (frequency : ℚ) :
    SampleSeq :=
  match s.kind with
  | BasicKind.sine =>
      takeDuration s.durationNanos SAMPLE_RATE 1
        (amplify s.amplitude (sineWave frequency))
  | BasicKind.square =>
      takeDuration s.durationNanos SAMPLE_RATE 1
        (amplify s.amplitude (squareWave frequency))
  | BasicKind.triangle =>
      takeDuration s.durationNanos SAMPLE_RATE 1
        (amplify s.amplitude (triangleWave frequency))
  | BasicKind.saw =>
      takeDuration s.durationNanos SAMPLE_RATE 1
        (amplify s.amplitude (sawtoothWave frequency))
  | BasicKind.noise =>
      match s.noise with
      | some p =>
          takeDuration s.durationNanos p.sample_rate 1
            (amplify s.amplitude (noiseStream p.seed))
      | none => fun _ => none

/-- C4 counterexample: the sequence the Sine patch produces is not
infinite — `take_duration(ENDLESS)` exhausts it within 3600 seconds, e.g.
at sample index 173,000,000 (≈ one hour at 48 kHz) it yields nothing. -/
theorem patch_sequence_not_infinite :
    (basicSource BasicKind.sine).createSource 440 173000000 = none := by
  have hc : ¬ ((173000000 + 1) * perSampleNanos SAMPLE_RATE 1 ≤ endlessNanos) := by
    decide
  simp [basicSource, BasicSource.createSource, takeDuration, hc]

/-- C4 amended: sample sequences of every basic patch are lazily evaluated
and yield a sample at every index inside the `ENDLESS` cap of 3600 seconds
(about 172.8 million samples at 48 kHz), but are exhausted beyond that cap
rather than being infinite. -/
theorem basic_source_yields_below_cap (kind : BasicKind) (freq : ℚ) (n : ℕ)
    (h : (n + 1) * perSampleNanos SAMPLE_RATE 1 ≤ endlessNanos) :
    (((basicSource kind).createSource freq) n).isSome = true := by
  cases kind <;>
    simp [basicSource, BasicSource.createSource, takeDuration, amplify,
      sineWave, squareWave, triangleWave, sawtoothWave, noiseStream, h]

/-- Witness for C4's amended claim: the Sine patch yields its first
sample. -/
theorem basic_source_yields_below_cap_witness :
    (((basicSource BasicKind.sine).createSource 440) 0).isSome = true :=
  basic_source_yields_below_cap BasicKind.sine 440 0 (by decide)

/-- C10: the Noise patch is deterministic with the single fixed seed — the
noise arm of `create_source` ignores the requested frequency entirely and
always starts `NoiseGen` from `0x1234_5678_9ABC_DEF0`, so the sample
sequences created for any two frequencies (two voices, two runs) agree
position for position. -/
theorem noise_patch_deterministic (f1 f2 : ℚ) (n : ℕ) :
    (basicSource BasicKind.noise).createSource f1 n
      = (basicSource BasicKind.noise).createSource f2 n := rfl

/-- The `struct PatchSource` from src/audio_patch.rs: one generator feeding a
chain of nodes (a generator is `frequency → stream`, a node transforms a
stream). -/
structure PatchSource where
  generator : ℚ → SampleSeq
  nodes : List (SampleSeq → SampleSeq)

/-- The `PatchSource::create_source` from src/audio_patch.rs: start from the
generator's stream and fold it through the node chain in order. -/
def PatchSource.createSource (p : PatchSource) (frequency : ℚ) : SampleSeq :=
  p.nodes.foldl (fun src n => n src) (p.generator frequency)

/-- C7: `createSource` is exactly the generator's sequence folded through
the nodes left to right — the empty chain gives the generator's sequence,
appending a node post-composes it, and a concrete chain `[n1, n2, n3]`
yields the nested application `n3 (n2 (n1 (g f)))`. -/
theorem patch_chain_fold (g : ℚ → SampleSeq)
    (ns : List (SampleSeq → SampleSeq))
    (nd n1 n2 n3 : SampleSeq → SampleSeq) (f : ℚ) :
    PatchSource.createSource ⟨g, []⟩ f = g f
    ∧ PatchSource.createSource ⟨g, ns ++ [nd]⟩ f
        = nd (PatchSource.createSource ⟨g, ns⟩ f)
    ∧ PatchSource.createSource ⟨g, [n1, n2, n3]⟩ f = n3 (n2 (n1 (g f))) := by
  refine ⟨rfl, ?_, rfl⟩
  simp [PatchSource.createSource]

/-! ## Key layer (src/key.rs, src/config.rs) -/

/-- The `BASE_FREQ` from src/config.rs. -/
noncomputable def BASE_FREQ : ℝ := 440

/-- The `A4_SEMITONES` from src/config.rs. -/
def A4_SEMITONES : ℤ := 57

/-- The `SEMITONES_PER_OCTAVE` from src/config.rs. -/
def SEMITONES_PER_OCTAVE : ℤ := 12

/-- The `KEYBOARD_BASE_OCTAVE` from src/config.rs. -/
def KEYBOARD_BASE_OCTAVE : ℤ := 4

/-- The `enum Note` from src/key.rs. -/
inductive Note
  | c
  | db
  | d
  | eb
  | e
  | f
  | gb
  | g
  | ab
  | a
  | bb
  | b
deriving DecidableEq, Repr

/-- The `note_semitone` from src/key.rs (the `#[repr(u8)]` discriminant as
`i32`). -/
def noteSemitone : Note → ℤ
  | Note.c => 0
  | Note.db => 1
  | Note.d => 2
  | Note.eb => 3
  | Note.e => 4
  | Note.f => 5
  | Note.gb => 6
  | Note.g => 7
  | Note.ab => 8
  | Note.a => 9
  | Note.bb => 10
  | Note.b => 11

/-- The `struct Key` from src/key.rs. -/
structure Key where
  note : Note
  octave : ℤ
deriving DecidableEq, Repr

/-- The `create_key` from src/key.rs. -/
def createKey (note : Note) (octave : ℤ) : Key :=
  { note := note, octave := octave }

/-- The `key_absolute_semitone` from src/key.rs. -/
def keyAbsoluteSemitone (k : Key) : ℤ :=
  k.octave * SEMITONES_PER_OCTAVE + noteSemitone k.note

/-- The `key_frequency` from src/key.rs:
`BASE_FREQ * 2.0^(semitone_diff / 12)`, the `f32` powf modelled by the real
power. -/
noncomputable def keyFrequency (k : Key) : ℝ :=
  BASE_FREQ * (2 : ℝ) ^ (((keyAbsoluteSemitone k - A4_SEMITONES : ℤ) : ℝ) / 12)

/-- The subset of device_query's `Keycode` (external library) that
src/play.rs and src/key.rs mention, plus representative unmapped codes. -/
inductive Keycode
  | a
  | s
  | d
  | f
  | g
  | h
  | j
  | k
  | l
  | semicolon
  | apostrophe
  | w
  | e
  | t
  | y
  | u
  | o
  | p
  | b
  | c
  | z
  | lcontrol
  | escape
  | space
deriving DecidableEq, Repr

/-- The `key_from_keycode` from src/key.rs: the fixed keyboard layout table at
base octave 4; everything else maps to `none`. -/
def keyFromKeycode (keycode : Keycode) : Option Key :=
  let base := KEYBOARD_BASE_OCTAVE
  match keycode with
  | Keycode.a => some (createKey Note.c base)
  | Keycode.s => some (createKey Note.d base)
  | Keycode.d => some (createKey Note.e base)
  | Keycode.f => some (createKey Note.f base)
  | Keycode.g => some (createKey Note.g base)
  | Keycode.h => some (createKey Note.a base)
  | Keycode.j => some (createKey Note.b base)
  | Keycode.k => some (createKey Note.c (base + 1))
  | Keycode.l => some (createKey Note.d (base + 1))
  | Keycode.semicolon => some (createKey Note.e (base + 1))
  | Keycode.apostrophe => some (createKey Note.f (base + 1))
  | Keycode.w => some (createKey Note.db base)
  | Keycode.e => some (createKey Note.eb base)
  | Keycode.t => some (createKey Note.gb base)
  | Keycode.y => some (createKey Note.ab base)
  | Keycode.u => some (createKey Note.bb base)
  | Keycode.o => some (createKey Note.db (base + 1))
  | Keycode.p => some (createKey Note.eb (base + 1))
  | _ => none

/-- C9: every musical key the key map can return has a strictly positive
frequency (`440 * 2^(d/12) > 0`), so every note `play_note` can create from
a key press satisfies the generator layer's `frequency > 0`
precondition. -/
theorem key_frequency_pos (kc : Keycode) (k : Key)
    (h : keyFromKeycode kc = some k) : 0 < keyFrequency k := by
  unfold keyFrequency BASE_FREQ
  positivity

/-- Witness for C9 at the physical key `A` (musical key C4). -/
theorem key_frequency_pos_witness :
    0 < keyFrequency (createKey Note.c KEYBOARD_BASE_OCTAVE) :=
  key_frequency_pos Keycode.a _ rfl

/-! ## Runtime command loop (src/play.rs, src/audio_system.rs) -/

/-- The `BasicSource`'s `AudioSource::name` (src/patches/basic.rs). -/
def BasicSource.name (s : BasicSource) : String := s.kind.name

/-- The `struct RuntimeState` from src/play.rs (the control loop's exclusively
owned mutable state; the boxed `dyn AudioSource` patches are the basic
sources in this program). -/
structure RuntimeState where
  volume : ℚ
  muted : Bool
  adsr : Adsr
  current_patch : BasicSource
  avaliable_patches : List BasicSource
  toggle_index : ℕ
  held_keys : List Keycode

/-- The `struct AudioSnapshot` from src/audio_system.rs. -/
structure AudioSnapshot where
  volume : ℚ
  muted : Bool
  patch_name : String

/-- The `publish_snapshot` from src/play.rs: the snapshot sent on the watch
channel after a mutation carries the runtime's volume, mute flag and the
current patch's name. -/
def publishSnapshot (rt : RuntimeState) : AudioSnapshot :=
  { volume := rt.volume
    muted := rt.muted
    patch_name := rt.current_patch.name }

/-- The `enum AudioCommand` from src/audio_system.rs. -/
inductive AudioCommand
  | setVolume (v : ℚ)
  | setMuted (m : Bool)
  | togglePatch (patches : List BasicSource)
  | setPatch (patch : BasicSource)
  | setAdsr (adsr : Adsr)

/-- The runtime-state mutation of each command arm of `run_audio`'s select
loop (src/play.rs); the sink side effects and voice restarts act on the
audio device and are outside this state. -/
noncomputable def applyCommand : AudioCommand → RuntimeState → RuntimeState
  | AudioCommand.setVolume v, rt => { rt with volume := fclamp v 0 2 }
  | AudioCommand.setMuted m, rt => { rt with muted := m }
  | AudioCommand.togglePatch ps, rt =>
      if ps.isEmpty then rt
      else { rt with
        avaliable_patches := ps
        toggle_index := 0
        current_patch := basicSource BasicKind.sine }
  | AudioCommand.setPatch p, rt => { rt with current_patch := p }
  | AudioCommand.setAdsr a, rt => { rt with adsr := a }

/-- C8: applying `SetVolume(x)` and reading the next published snapshot
reports exactly `x.clamp(0.0, 2.0)` — out-of-range values are clamped
(`min 2 (max 0 x)`), never rejected. -/
theorem set_volume_roundtrip (x : ℚ) (rt : RuntimeState) :
    (publishSnapshot (applyCommand (AudioCommand.setVolume x) rt)).volume
        = fclamp x 0 2
    ∧ fclamp x 0 2 = min 2 (max 0 x) := by
  refine ⟨rfl, ?_⟩
  unfold fclamp
  split_ifs with h1 h2
  · rw [max_eq_left h1.le, min_eq_right (by norm_num)]
  · rw [max_eq_right (by linarith), min_eq_left (by linarith)]
  · rw [max_eq_right (by linarith), min_eq_right (by linarith)]

end Tjam
